import Mathlib

/-!
Shallow embedding of the `charm-circles` ROSCA core (`src/src/lib.rs`).

Machine integers are modelled as `Nat` with explicit wrap-around (`% 2^32`
for `u32`, `% 2^64` for `u64`) at the operations where the source performs
machine arithmetic.  Byte arrays (`[u8; 32]`, the `Vec<u8>` inside `PubKey`)
are `List Nat`.  Rust methods that take `&mut self` and return
`Result<T, String>` are modelled as functions `CircleState → ... →
Except String T × CircleState`, the second component being the state after
the call (unchanged on every error path exactly where the source returns
before mutating).  Rust `format!` error messages are replaced by their
constant prefix; the development only ever distinguishes which error is
returned, never the interpolated numbers.
-/

namespace CharmCircles

def U32 : Nat := 2 ^ 32
def U64 : Nat := 2 ^ 64

/-- `ContributionRecord` from `lib.rs`: one member's contribution for one
round (`round: u32`, `amount: u64`, `timestamp: u64`, `txid: [u8; 32]`). -/
structure ContributionRecord where
  round : Nat
  amount : Nat
  timestamp : Nat
  txid : List Nat
deriving DecidableEq, Repr

/-- `Member` from `lib.rs`. -/
structure Member where
  pubkey : List Nat
  contribution_amount : Nat
  contribution_history : List ContributionRecord
  has_received_payout : Bool
  payout_round : Nat
  joined_at : Nat
deriving DecidableEq, Repr

/-- `CircleState` from `lib.rs`. -/
structure CircleState where
  circle_id : List Nat
  members : List Member
  current_round : Nat
  total_rounds : Nat
  contribution_per_round : Nat
  current_payout_index : Nat
  current_pool : Nat
  created_at : Nat
  round_started_at : Nat
  round_duration : Nat
  is_complete : Bool
  prev_state_hash : List Nat
deriving DecidableEq, Repr

/-- Default member, used only to make positional lookups total (`List.getD`). -/
def dMem : Member :=
  { pubkey := [], contribution_amount := 0, contribution_history := []
    has_received_payout := false, payout_round := 0, joined_at := 0 }

instance : Inhabited Member := ⟨dMem⟩

/-- `CircleState::new` from `lib.rs`. -/
def CircleState.new (circle_id : List Nat) (contribution_per_round : Nat)
    (round_duration : Nat) (created_at : Nat) : CircleState :=
  { circle_id
    members := []
    current_round := 0
    total_rounds := 0
    contribution_per_round
    current_payout_index := 0
    current_pool := 0
    created_at
    round_started_at := created_at
    round_duration
    is_complete := false
    prev_state_hash := List.replicate 32 0 }

/-! ### Canonical encoding and hash

`CircleState::state_hash` in the source is SHA-256 over the ciborium (CBOR)
serialization of the state; both SHA-256 and ciborium are external library
dependencies, not code under `src/`.

Modelled from the spec: "serializes the full state using a fixed,
deterministic binary encoding (field order exactly as declared)" and
"applies a 256-bit cryptographic hash to the resulting bytes, producing a
32-byte digest".  The encoding below lists every field in declaration
order (`u64`/`usize` as 8 big-endian bytes, `u32` as 4 bytes, `bool` as one
byte, fixed 32-byte arrays raw, variable sequences length-prefixed); the
hash is an abstract deterministic 32-byte digest of those bytes.  Every
claim in this development depends only on the encoding being deterministic
and injective on well-formed states, and on which state gets hashed —
never on actual CBOR framing or SHA-256 digest bits. -/

def u64Bytes (n : Nat) : List Nat :=
  [n / 2 ^ 56 % 256, n / 2 ^ 48 % 256, n / 2 ^ 40 % 256, n / 2 ^ 32 % 256,
   n / 2 ^ 24 % 256, n / 2 ^ 16 % 256, n / 2 ^ 8 % 256, n % 256]

def u32Bytes (n : Nat) : List Nat :=
  [n / 2 ^ 24 % 256, n / 2 ^ 16 % 256, n / 2 ^ 8 % 256, n % 256]

def boolByte (b : Bool) : List Nat := [if b then 1 else 0]

/-- Encoding of a length-prefixed byte sequence (models serde's encoding of
`Vec<u8>`). -/
def bytesEnc (l : List Nat) : List Nat := u64Bytes l.length ++ l

def encRecord (c : ContributionRecord) : List Nat :=
  u32Bytes c.round ++ u64Bytes c.amount ++ u64Bytes c.timestamp ++ c.txid

def encMember (m : Member) : List Nat :=
  bytesEnc m.pubkey ++ u64Bytes m.contribution_amount ++
    u64Bytes m.contribution_history.length ++
    (m.contribution_history.map encRecord).flatten ++
    boolByte m.has_received_payout ++ u32Bytes m.payout_round ++
    u64Bytes m.joined_at

def encodeState (s : CircleState) : List Nat :=
  s.circle_id ++ u64Bytes s.members.length ++ (s.members.map encMember).flatten ++
    u32Bytes s.current_round ++ u32Bytes s.total_rounds ++
    u64Bytes s.contribution_per_round ++ u64Bytes s.current_payout_index ++
    u64Bytes s.current_pool ++ u64Bytes s.created_at ++
    u64Bytes s.round_started_at ++ u64Bytes s.round_duration ++
    boolByte s.is_complete ++ s.prev_state_hash

/-- One mixing step of the abstract digest: rotate the 32-byte accumulator
and fold the next input byte into it. -/
def digestStep (acc : List Nat) (b : Nat) : List Nat :=
  match acc with
  | [] => []
  | a :: rest => rest ++ [(a * 31 + b + 1) % 256]

/-- Abstract deterministic 32-byte digest (stands in for SHA-256). -/
def digest (bytes : List Nat) : List Nat :=
  bytes.foldl digestStep (List.replicate 32 0)

/-- `CircleState::state_hash` from `lib.rs` (digest of the canonical
encoding; see the section comment above for the modelling of SHA-256 and
CBOR, which live in external crates). -/
def state_hash (s : CircleState) : List Nat :=
  digest (encodeState s)

/-! ### Lifecycle operations -/

/-- `CircleState::add_member` from `lib.rs`. -/
def add_member (s : CircleState) (pubkey : List Nat) (payout_round : Nat)
    (timestamp : Nat) : Except String Unit × CircleState :=
  if s.current_round > 0 then
    (Except.error "Cannot add members after circle has started", s)
  else if s.members.any (fun m => m.pubkey == pubkey) then
    (Except.error "Member already exists", s)
  else if payout_round ≥ s.members.length + 1 then
    (Except.error "Invalid payout round", s)
  else
    let member : Member :=
      { pubkey
        contribution_amount := s.contribution_per_round
        contribution_history := []
        has_received_payout := false
        payout_round
        joined_at := timestamp }
    let members := s.members ++ [member]
    (Except.ok (), { s with members, total_rounds := members.length % U32 })

/-- The body of `CircleState::record_contribution` after the
`is_complete` check: `iter_mut().find` locates the first member with the
given pubkey and the checks/mutation act on that member.  Returns the
updated member list or the error of the source. -/
def recordInMembers (pubkey : List Nat) (current_round : Nat) (cpr : Nat)
    (amount : Nat) (timestamp : Nat) (txid : List Nat) :
    List Member → Except String (List Member)
  | [] => Except.error "Member not found"
  | m :: rest =>
    if m.pubkey == pubkey then
      if m.contribution_history.any (fun c => c.round == current_round) then
        Except.error "Member already contributed this round"
      else if amount ≠ cpr then
        Except.error "Invalid contribution amount"
      else
        Except.ok ({ m with contribution_history :=
          m.contribution_history ++
            [{ round := current_round, amount, timestamp, txid }] } :: rest)
    else
      (recordInMembers pubkey current_round cpr amount timestamp txid rest).map
        (fun rest2 => m :: rest2)

/-- `CircleState::record_contribution` from `lib.rs`. -/
def record_contribution (s : CircleState) (pubkey : List Nat) (amount : Nat)
    (timestamp : Nat) (txid : List Nat) : Except String Unit × CircleState :=
  if s.is_complete then
    (Except.error "Circle is already complete", s)
  else
    match recordInMembers pubkey s.current_round s.contribution_per_round
        amount timestamp txid s.members with
    | Except.error e => (Except.error e, s)
    | Except.ok ms =>
      (Except.ok (),
        { s with members := ms, current_pool := (s.current_pool + amount) % U64 })

/-- `CircleState::is_round_fully_funded` from `lib.rs`. -/
def is_round_fully_funded (s : CircleState) : Bool :=
  (s.members.filter (fun m =>
    m.contribution_history.any (fun c => c.round == s.current_round))).length
    == s.members.length

/-- `CircleState::execute_payout` from `lib.rs`. -/
def execute_payout (s : CircleState) (timestamp : Nat) :
    Except String (List Nat × Nat) × CircleState :=
  if s.is_complete then
    (Except.error "Circle is already complete", s)
  else if ¬ is_round_fully_funded s then
    (Except.error "Round is not fully funded yet", s)
  else if s.current_payout_index ≥ s.members.length then
    (Except.error "Invalid payout index", s)
  else
    let member := s.members.getD s.current_payout_index dMem
    if member.has_received_payout then
      (Except.error "Member has already received payout", s)
    else
      let payout_amount := s.current_pool
      let recipient := member.pubkey
      let paidMember := { member with has_received_payout := true }
      let s1 := { s with members := s.members.set s.current_payout_index paidMember }
      let s2 := { s1 with prev_state_hash := state_hash s1 }
      let s3 := { s2 with
                    current_pool := 0
                    current_round := (s.current_round + 1) % U32
                    current_payout_index :=
                      (s.current_payout_index + 1) % s.members.length
                    round_started_at := timestamp }
      let s4 := if s3.current_round ≥ s3.total_rounds then
                  { s3 with is_complete := true }
                else s3
      (Except.ok (recipient, payout_amount), s4)

/-- `CircleState::validate_transition` from `lib.rs`. -/
def validate_transition (s next : CircleState) : Except String Unit :=
  if s.circle_id ≠ next.circle_id then
    Except.error "Circle ID mismatch"
  else if s.current_round > 0 ∧ s.members.length ≠ next.members.length then
    Except.error "Cannot change member count after start"
  else if next.current_round > (s.current_round + 1) % U32 then
    Except.error "Invalid round progression"
  else if next.current_round = s.current_round then
    if next.current_pool < s.current_pool then
      Except.error "Pool cannot decrease within round"
    else Except.ok ()
  else
    if next.current_pool ≠ 0 then
      Except.error "Pool must reset on new round"
    else Except.ok ()

/-- The per-member contribution-history loop of `CircleState::validate`:
fail-fast walk with the set of already-seen round numbers. -/
def checkHistory (cpr tr : Nat) : List ContributionRecord → List Nat →
    Except String Unit
  | [], _ => Except.ok ()
  | c :: rest, seen =>
    if c.round ≥ tr then Except.error "Invalid contribution round"
    else if c.amount ≠ cpr then Except.error "Invalid contribution amount"
    else if seen.contains c.round then
      Except.error "Duplicate contribution for round"
    else checkHistory cpr tr rest (c.round :: seen)

/-- The per-member loop of `CircleState::validate`. -/
def checkMembers (tr cr cpr : Nat) : List Member → Except String Unit
  | [] => Except.ok ()
  | m :: rest =>
    if m.payout_round ≥ tr then
      Except.error "Member has invalid payout round"
    else if m.has_received_payout ∧ m.payout_round ≥ cr then
      Except.error "Member marked as paid but round has not occurred"
    else
      match checkHistory cpr tr m.contribution_history [] with
      | Except.error e => Except.error e
      | Except.ok () => checkMembers tr cr cpr rest

/-- The `expected_pool` computation of `CircleState::validate`: for each
member, the amount of the first history record for `current_round`, summed
(u64 sum). -/
def expected_pool (s : CircleState) : Nat :=
  ((s.members.filterMap (fun m =>
      (m.contribution_history.find? (fun c => c.round == s.current_round)).map
        (fun c => c.amount))).sum) % U64

/-- `CircleState::validate` from `lib.rs`. -/
def validate (s : CircleState) : Except String Unit :=
  if s.members.isEmpty then
    Except.error "Circle has no members"
  else if s.total_rounds ≠ s.members.length % U32 then
    Except.error "Total rounds must equal number of members"
  else if s.current_round > s.total_rounds then
    Except.error "Current round exceeds total rounds"
  else if s.current_payout_index ≥ s.members.length then
    Except.error "Invalid payout index"
  else
    match checkMembers s.total_rounds s.current_round
        s.contribution_per_round s.members with
    | Except.error e => Except.error e
    | Except.ok () =>
      if s.current_pool ≠ expected_pool s then
        Except.error "Current pool mismatch"
      else Except.ok ()

/-- `true` exactly on the `Except.error` constructor. -/
def isErr : Except String α → Bool
  | Except.error _ => true
  | Except.ok _ => false

instance {ε α : Type} [DecidableEq ε] [DecidableEq α] :
    DecidableEq (Except ε α) := fun x y =>
  match x, y with
  | Except.error a, Except.error b => decidable_of_iff (a = b) (by simp)
  | Except.error _, Except.ok _ => Decidable.isFalse (by simp)
  | Except.ok _, Except.error _ => Decidable.isFalse (by simp)
  | Except.ok a, Except.ok b => decidable_of_iff (a = b) (by simp)

/-! ### Concrete states, used by witnesses and counterexamples

These mirror the repository's own test fixtures (`test_pubkey`, the
two-member scenario of `test_contribution_and_payout`). -/

def pkA : List Nat := 2 :: 1 :: List.replicate 31 0

def pkB : List Nat := 2 :: 2 :: List.replicate 31 0

def tx0 : List Nat := List.replicate 32 0

/-- Fresh empty circle, as `CircleState::new([1u8; 32], 100_000, 2_592_000, 1234567890)`. -/
def W0 : CircleState := CircleState.new (List.replicate 32 1) 100000 2592000 1234567890

/-- `W0` with member A added. -/
def W1 : CircleState := (add_member W0 pkA 0 1234567890).2

/-- Two-member circle (A with payout_round 0, B with payout_round 1). -/
def W2 : CircleState := (add_member W1 pkB 1 1234567891).2

/-- `W2` after member A contributed 100000 for round 0. -/
def W2a : CircleState := (record_contribution W2 pkA 100000 1234567900 tx0).2

/-- `W2` after both members contributed 100000 for round 0 (fully funded). -/
def W2b : CircleState := (record_contribution W2a pkB 100000 1234567901 tx0).2

/-- A state on which all three mutating operations fail: complete, already
started, no members. -/
def WFail : CircleState := { W0 with current_round := 1, total_rounds := 1, is_complete := true }

/-- Complete state with `current_round = 0`: the source's `add_member`
accepts it (it never consults `is_complete`). -/
def SC9 : CircleState := { W0 with is_complete := true }

/-- Two-member state at round 5 (predecessor of the transition counterexample). -/
def SA2 : CircleState := { W2 with current_round := 5, total_rounds := 2 }

/-- Same circle at the *smaller* round 3 with pool 0: accepted by
`validate_transition` although the round went backwards. -/
def SB2 : CircleState := { W2 with current_round := 3, current_pool := 0, total_rounds := 2 }

/-- A member whose `payout_round` (5) is out of range for a 1-member circle. -/
def mBad : Member :=
  { pubkey := pkA, contribution_amount := 100000, contribution_history := []
    has_received_payout := false, payout_round := 5, joined_at := 0 }

/-- One-member state satisfying every condition listed by the spec's
`validate()` characterization, yet rejected by the code (payout_round out of
range). -/
def S3 : CircleState := { W0 with members := [mBad], total_rounds := 1 }

/-- Forgets a member's `payout_round` (sets it to 0); two members are
"identical except in payout_round" iff their erasures are equal. -/
def eraseMember (m : Member) : Member := { m with payout_round := 0 }

/-- Forgets every member's `payout_round`; two states are "identical except
in the payout_round values of their members" iff their erasures are equal. -/
def eraseState (s : CircleState) : CircleState :=
  { s with members := s.members.map eraseMember }

/-- `W2b` with every member's `payout_round` shifted by 7: identical to
`W2b` except in the payout_round values. -/
def shiftPayoutRound (m : Member) : Member := { m with payout_round := m.payout_round + 7 }

def S5 : CircleState := { W2b with members := W2b.members.map shiftPayoutRound }

/-! ### Decoder for the canonical encoding (C8)

Modelled from the spec: the inverse direction of the "canonical binary
map/array encoding with declaration-order fields"; the concrete CBOR
decoder (`ciborium::de::from_reader`) is an external dependency, not code
under `src/`. -/

def decU64 : List Nat → Option (Nat × List Nat)
  | b0 :: b1 :: b2 :: b3 :: b4 :: b5 :: b6 :: b7 :: rest =>
    some (b0 * 2 ^ 56 + b1 * 2 ^ 48 + b2 * 2 ^ 40 + b3 * 2 ^ 32 +
      b4 * 2 ^ 24 + b5 * 2 ^ 16 + b6 * 2 ^ 8 + b7, rest)
  | _ => none

def decU32 : List Nat → Option (Nat × List Nat)
  | b0 :: b1 :: b2 :: b3 :: rest =>
    some (b0 * 2 ^ 24 + b1 * 2 ^ 16 + b2 * 2 ^ 8 + b3, rest)
  | _ => none

def decBool : List Nat → Option (Bool × List Nat)
  | 0 :: rest => some (false, rest)
  | 1 :: rest => some (true, rest)
  | _ => none

def decBytes (n : Nat) (l : List Nat) : Option (List Nat × List Nat) :=
  if l.length < n then none else some (l.take n, l.drop n)

def decRecord (l : List Nat) : Option (ContributionRecord × List Nat) :=
  match decU32 l with
  | none => none
  | some (r, l) =>
  match decU64 l with
  | none => none
  | some (a, l) =>
  match decU64 l with
  | none => none
  | some (t, l) =>
  match decBytes 32 l with
  | none => none
  | some (tx, l) =>
    some ({ round := r, amount := a, timestamp := t, txid := tx }, l)

def decListN {α : Type} (dec : List Nat → Option (α × List Nat)) :
    Nat → List Nat → Option (List α × List Nat)
  | 0, l => some ([], l)
  | n + 1, l =>
    match dec l with
    | none => none
    | some (x, l1) =>
    match decListN dec n l1 with
    | none => none
    | some (xs, l2) => some (x :: xs, l2)

def decMember (l : List Nat) : Option (Member × List Nat) :=
  match decU64 l with
  | none => none
  | some (pkLen, l) =>
  match decBytes pkLen l with
  | none => none
  | some (pk, l) =>
  match decU64 l with
  | none => none
  | some (ca, l) =>
  match decU64 l with
  | none => none
  | some (n, l) =>
  match decListN decRecord n l with
  | none => none
  | some (hist, l) =>
  match decBool l with
  | none => none
  | some (hr, l) =>
  match decU32 l with
  | none => none
  | some (pr, l) =>
  match decU64 l with
  | none => none
  | some (ja, l) =>
    some ({ pubkey := pk, contribution_amount := ca, contribution_history := hist,
            has_received_payout := hr, payout_round := pr, joined_at := ja }, l)

def decodeState (l : List Nat) : Option (CircleState × List Nat) :=
  match decBytes 32 l with
  | none => none
  | some (cid, l) =>
  match decU64 l with
  | none => none
  | some (n, l) =>
  match decListN decMember n l with
  | none => none
  | some (ms, l) =>
  match decU32 l with
  | none => none
  | some (cr, l) =>
  match decU32 l with
  | none => none
  | some (tr, l) =>
  match decU64 l with
  | none => none
  | some (cpr, l) =>
  match decU64 l with
  | none => none
  | some (idx, l) =>
  match decU64 l with
  | none => none
  | some (pool, l) =>
  match decU64 l with
  | none => none
  | some (ca, l) =>
  match decU64 l with
  | none => none
  | some (rs, l) =>
  match decU64 l with
  | none => none
  | some (rd, l) =>
  match decBool l with
  | none => none
  | some (ic, l) =>
  match decBytes 32 l with
  | none => none
  | some (ph, l) =>
    some ({ circle_id := cid, members := ms, current_round := cr, total_rounds := tr,
            contribution_per_round := cpr, current_payout_index := idx,
            current_pool := pool, created_at := ca, round_started_at := rs,
            round_duration := rd, is_complete := ic, prev_state_hash := ph }, l)

/-- All entries are bytes. -/
def bytesOk (l : List Nat) : Prop := ∀ b ∈ l, b < 256

/-- Rust representability of a `ContributionRecord` (field widths as in the
source: `u32`, `u64`, `u64`, `[u8; 32]`). -/
def wfRecord (c : ContributionRecord) : Prop :=
  c.round < U32 ∧ c.amount < U64 ∧ c.timestamp < U64 ∧
  c.txid.length = 32 ∧ bytesOk c.txid

/-- Rust representability of a `Member`. -/
def wfMember (m : Member) : Prop :=
  bytesOk m.pubkey ∧ m.pubkey.length < U64 ∧ m.contribution_amount < U64 ∧
  m.contribution_history.length < U64 ∧
  (∀ c ∈ m.contribution_history, wfRecord c) ∧
  m.payout_round < U32 ∧ m.joined_at < U64

/-- Rust representability of a `CircleState`: every Rust value of the struct
satisfies this. -/
def wfState (s : CircleState) : Prop :=
  s.circle_id.length = 32 ∧ bytesOk s.circle_id ∧ s.members.length < U64 ∧
  (∀ m ∈ s.members, wfMember m) ∧ s.current_round < U32 ∧
  s.total_rounds < U32 ∧ s.contribution_per_round < U64 ∧
  s.current_payout_index < U64 ∧ s.current_pool < U64 ∧ s.created_at < U64 ∧
  s.round_started_at < U64 ∧ s.round_duration < U64 ∧
  s.prev_state_hash.length = 32 ∧ bytesOk s.prev_state_hash

instance (l : List Nat) : Decidable (bytesOk l) := by
  unfold bytesOk; infer_instance

instance (c : ContributionRecord) : Decidable (wfRecord c) := by
  unfold wfRecord; infer_instance

instance (m : Member) : Decidable (wfMember m) := by
  unfold wfMember; infer_instance

instance (s : CircleState) : Decidable (wfState s) := by
  unfold wfState; infer_instance

/-! ### Theorems -/

/-- C10: on a state with an empty members list, `is_round_fully_funded`
returns `true` (the all-members condition holds vacuously), and
`execute_payout` (with `is_complete = false`) fails with the
`Invalid payout index` error — not `RoundNotFunded` — leaving the state
unchanged. -/
theorem C10_empty_members (s : CircleState) (h : s.members = []) (ts : Nat) :
    is_round_fully_funded s = true ∧
    (s.is_complete = false →
      execute_payout s ts = (Except.error "Invalid payout index", s)) := by
  constructor
  · simp [is_round_fully_funded, h]
  · intro hc
    simp [execute_payout, hc, is_round_fully_funded, h]

/-- Witness for C10 at the fresh empty circle `W0`. -/
theorem C10_empty_members_witness :
    is_round_fully_funded W0 = true ∧
    execute_payout W0 42 = (Except.error "Invalid payout index", W0) :=
  ⟨(C10_empty_members W0 rfl 42).1, (C10_empty_members W0 rfl 42).2 rfl⟩

/-- C4: whenever `add_member`, `record_contribution` or `execute_payout`
returns an error, the state after the call equals the state before the call
in every field. -/
theorem C4_errors_leave_state_unchanged (s : CircleState) (pk : List Nat)
    (pr ts amt ts2 ts3 : Nat) (txid : List Nat) :
    (isErr (add_member s pk pr ts).1 = true → (add_member s pk pr ts).2 = s) ∧
    (isErr (record_contribution s pk amt ts2 txid).1 = true →
      (record_contribution s pk amt ts2 txid).2 = s) ∧
    (isErr (execute_payout s ts3).1 = true → (execute_payout s ts3).2 = s) := by
  refine ⟨?_, ?_, ?_⟩
  · unfold add_member
    split
    · intro _; rfl
    · split
      · intro _; rfl
      · split
        · intro _; rfl
        · intro h; simp [isErr] at h
  · unfold record_contribution
    split
    · intro _; rfl
    · split
      · intro _; rfl
      · intro h; simp [isErr] at h
  · unfold execute_payout
    split
    · intro _; rfl
    · split
      · intro _; rfl
      · split
        · intro _; rfl
        · dsimp only
          split
          · intro _; rfl
          · intro h; simp [isErr] at h

/-- Witness for C4 at `WFail`: all three operations fail there and return
the state unchanged. -/
theorem C4_errors_leave_state_unchanged_witness :
    (add_member WFail pkB 0 7).2 = WFail ∧
    (record_contribution WFail pkA 100000 8 tx0).2 = WFail ∧
    (execute_payout WFail 9).2 = WFail :=
  ⟨(C4_errors_leave_state_unchanged WFail pkB 0 7 100000 8 9 tx0).1 (by decide),
   (C4_errors_leave_state_unchanged WFail pkB 0 7 100000 8 9 tx0).2.1 (by decide),
   (C4_errors_leave_state_unchanged WFail pkB 0 7 100000 8 9 tx0).2.2 (by decide)⟩

/-- C9 counterexample: a state with `is_complete = true` but
`current_round = 0` is *not* rejected by `add_member` — the call succeeds
and mutates the state, refuting the claim that every operation rejects a
complete state. -/
theorem C9_counterexample :
    SC9.is_complete = true ∧
    (add_member SC9 pkA 0 7).1 = Except.ok () ∧
    (add_member SC9 pkA 0 7).2 ≠ SC9 := by
  refine ⟨rfl, rfl, ?_⟩
  decide

/-- C9 amended: on a complete state, `record_contribution` and
`execute_payout` always fail and leave the state unchanged; `add_member`
does so as well whenever `current_round > 0` (which holds in every complete
state reachable by the operations, since only `execute_payout` sets
`is_complete`, after incrementing `current_round`).  `add_member` checks
only `current_round`, never `is_complete`. -/
theorem C9_terminal_states_reject (s : CircleState) (h : s.is_complete = true)
    (pk : List Nat) (pr ts amt ts2 ts3 : Nat) (txid : List Nat) :
    record_contribution s pk amt ts2 txid =
      (Except.error "Circle is already complete", s) ∧
    execute_payout s ts3 = (Except.error "Circle is already complete", s) ∧
    (s.current_round > 0 →
      add_member s pk pr ts =
        (Except.error "Cannot add members after circle has started", s)) := by
  refine ⟨?_, ?_, fun hr => ?_⟩
  · simp [record_contribution, h]
  · simp [execute_payout, h]
  · simp [add_member, hr]

/-- Witness for C9 (amended) at `WFail` (complete, round 1). -/
theorem C9_terminal_states_reject_witness :
    record_contribution WFail pkA 100000 8 tx0 =
      (Except.error "Circle is already complete", WFail) ∧
    execute_payout WFail 9 = (Except.error "Circle is already complete", WFail) ∧
    add_member WFail pkB 0 7 =
      (Except.error "Cannot add members after circle has started", WFail) :=
  ⟨(C9_terminal_states_reject WFail rfl pkB 0 7 100000 8 9 tx0).1,
   (C9_terminal_states_reject WFail rfl pkB 0 7 100000 8 9 tx0).2.1,
   (C9_terminal_states_reject WFail rfl pkB 0 7 100000 8 9 tx0).2.2 (by decide)⟩

/-- C2 counterexample: `validate_transition` accepts a successor whose
`current_round` (3) is strictly smaller than the predecessor's (5) — the
code only rejects `next.current_round > self.current_round + 1`, so the
claimed rejection of smaller rounds is false. -/
theorem C2_counterexample :
    validate_transition SA2 SB2 = Except.ok () ∧
    SB2.current_round < SA2.current_round ∧
    SB2.current_round ≠ SA2.current_round ∧
    SB2.current_round ≠ SA2.current_round + 1 := by
  refine ⟨rfl, by decide, by decide, by decide⟩

/-- C2 amended: `validate_transition(next)` succeeds iff `circle_id`
matches, the member count is unchanged when `self.current_round > 0`,
`next.current_round` is at most `self.current_round + 1` (u32 arithmetic) —
smaller rounds included — and the pool is monotone when the round is
unchanged and zero when the round changed. -/
theorem C2_validate_transition_iff (s t : CircleState) :
    validate_transition s t = Except.ok () ↔
      (s.circle_id = t.circle_id ∧
       (s.current_round > 0 → s.members.length = t.members.length) ∧
       t.current_round ≤ (s.current_round + 1) % U32 ∧
       (t.current_round = s.current_round → t.current_pool ≥ s.current_pool) ∧
       (t.current_round ≠ s.current_round → t.current_pool = 0)) := by
  unfold validate_transition
  split
  case isTrue h1 =>
    simp only [reduceCtorEq, false_iff]
    intro hr
    exact h1 hr.1
  case isFalse h1 =>
    split
    case isTrue h2 =>
      simp only [reduceCtorEq, false_iff]
      intro hr
      exact h2.2 (hr.2.1 h2.1)
    case isFalse h2 =>
      split
      case isTrue h3 =>
        simp only [reduceCtorEq, false_iff]
        intro hr
        omega
      case isFalse h3 =>
        push_neg at h1 h2
        split
        case isTrue h4 =>
          split
          case isTrue h5 =>
            simp only [reduceCtorEq, false_iff]
            intro hr
            have := hr.2.2.2.1 h4
            omega
          case isFalse h5 =>
            simp only [true_iff]
            refine ⟨h1, h2, by omega, fun _ => by omega, fun hne => absurd h4 hne⟩
        case isFalse h4 =>
          split
          case isTrue h5 =>
            simp only [reduceCtorEq, false_iff]
            intro hr
            exact h5 (hr.2.2.2.2 h4)
          case isFalse h5 =>
            simp only [true_iff]
            refine ⟨h1, h2, by omega, fun he => absurd he h4, fun _ => by omega⟩

/-- C6: `add_member` fails `AlreadyStarted` when `current_round > 0`,
`DuplicateMember` when a member with an equal pubkey is present,
`InvalidPayoutRound` exactly when `payout_round > members.length` counted
before insertion (so `payout_round = members.length` is accepted); on
success it appends one member with the described fields and sets
`total_rounds` to the new member count (as u32). -/
theorem C6_add_member_characterization (s : CircleState) (pk : List Nat)
    (pr ts : Nat) :
    (s.current_round > 0 →
      add_member s pk pr ts =
        (Except.error "Cannot add members after circle has started", s)) ∧
    (s.current_round = 0 → (∃ m ∈ s.members, m.pubkey = pk) →
      add_member s pk pr ts = (Except.error "Member already exists", s)) ∧
    (s.current_round = 0 → (∀ m ∈ s.members, m.pubkey ≠ pk) →
      (pr > s.members.length →
        add_member s pk pr ts = (Except.error "Invalid payout round", s)) ∧
      (pr ≤ s.members.length →
        add_member s pk pr ts = (Except.ok (),
          { s with
              members := s.members ++
                [{ pubkey := pk, contribution_amount := s.contribution_per_round,
                   contribution_history := [], has_received_payout := false,
                   payout_round := pr, joined_at := ts }],
              total_rounds := (s.members.length + 1) % U32 }))) := by
  refine ⟨fun h1 => ?_, fun h0 hdup => ?_, fun h0 hnone => ?_⟩
  · simp [add_member, h1]
  · have hany : s.members.any (fun m => m.pubkey == pk) = true := by
      simp only [List.any_eq_true, beq_iff_eq]
      exact hdup
    simp [add_member, h0, hany]
  · have hany : s.members.any (fun m => m.pubkey == pk) = false := by
      simp only [List.any_eq_false, beq_iff_eq]
      exact hnone
    refine ⟨fun hgt => ?_, fun hle => ?_⟩
    · unfold add_member
      rw [if_neg (by omega), if_neg (by simp [hany]), if_pos (by omega)]
    · unfold add_member
      rw [if_neg (by omega), if_neg (by simp [hany]), if_neg (by omega)]
      simp

/-- Witness for C6: on the one-member circle `W1`, adding B with
`payout_round = 1 = members.length` (the permissive boundary) succeeds,
while `payout_round = 2` is rejected. -/
theorem C6_add_member_characterization_witness :
    add_member W1 pkB 2 1234567891 = (Except.error "Invalid payout round", W1) ∧
    add_member W1 pkB 1 1234567891 = (Except.ok (),
      { W1 with
          members := W1.members ++
            [{ pubkey := pkB, contribution_amount := W1.contribution_per_round,
               contribution_history := [], has_received_payout := false,
               payout_round := 1, joined_at := 1234567891 }],
          total_rounds := (W1.members.length + 1) % U32 }) :=
  ⟨((C6_add_member_characterization W1 pkB 2 1234567891).2.2 (by decide)
      (by decide)).1 (by decide),
   ((C6_add_member_characterization W1 pkB 1 1234567891).2.2 (by decide)
      (by decide)).2 (by decide)⟩

/-- C1: whenever `execute_payout(timestamp)` succeeds, the returned pair is
(pubkey of the member at `current_payout_index`, the pre-call
`current_pool`), and the resulting state is the intermediate state in which
that member is marked paid (pool, round, payout index, `round_started_at`
unchanged) further updated with: `prev_state_hash` = `state_hash` of that
intermediate state, `current_pool = 0`, `current_round` incremented (u32),
`current_payout_index` advanced mod `members.length`, `round_started_at` =
`timestamp`, and `is_complete` true exactly when the new `current_round`
reaches `total_rounds`. -/
theorem C1_execute_payout_success (s : CircleState) (ts : Nat)
    (pk : List Nat) (amt : Nat)
    (h : (execute_payout s ts).1 = Except.ok (pk, amt)) :
    s.current_payout_index < s.members.length ∧
    pk = (s.members.getD s.current_payout_index dMem).pubkey ∧
    amt = s.current_pool ∧
    (execute_payout s ts).2 =
      (let pm : Member :=
         { s.members.getD s.current_payout_index dMem with has_received_payout := true }
       let paid : CircleState :=
         { s with members := s.members.set s.current_payout_index pm }
       { paid with
           prev_state_hash := state_hash paid,
           current_pool := 0,
           current_round := (s.current_round + 1) % U32,
           current_payout_index := (s.current_payout_index + 1) % s.members.length,
           round_started_at := ts,
           is_complete := decide ((s.current_round + 1) % U32 ≥ s.total_rounds) }) ∧
    ((execute_payout s ts).2.members.getD s.current_payout_index
        dMem).has_received_payout = true ∧
    ((execute_payout s ts).2.is_complete = true ↔
      (execute_payout s ts).2.current_round ≥ (execute_payout s ts).2.total_rounds) := by
  unfold execute_payout at h ⊢
  split at h
  · simp at h
  · rename_i h1
    split at h
    · simp at h
    · rename_i h2
      split at h
      · simp at h
      · rename_i h3
        dsimp only at h
        split at h
        · simp at h
        · rename_i h4
          simp only [Except.ok.injEq, Prod.mk.injEq] at h
          have hlt : s.current_payout_index < s.members.length := by omega
          have hcomp : s.is_complete = false := by
            simpa using h1
          refine ⟨hlt, h.1.symm, h.2.symm, ?_⟩
          rw [if_neg h1, if_neg h2, if_neg h3]
          dsimp only
          rw [if_neg (by simpa using h4)]
          have hset : ((s.members.set s.current_payout_index
              ({ s.members.getD s.current_payout_index dMem with has_received_payout := true })).getD
                s.current_payout_index dMem).has_received_payout = true := by
            rw [List.getD_eq_getElem?_getD, List.getElem?_set_self
              (by simpa using hlt)]
            rfl
          refine ⟨?_, ?_, ?_⟩
          · split
            · rename_i h5
              rw [decide_eq_true h5]
            · rename_i h5
              rw [decide_eq_false h5, hcomp]
          · split <;> exact hset
          · split
            · rename_i h5
              simpa using h5
            · rename_i h5
              simp only [hcomp]
              simpa using h5

/-- Witness for C1 at the fully funded two-member circle `W2b`:
the payout goes to A and pays the full 200000 pool. -/
theorem C1_execute_payout_success_witness :
    W2b.current_payout_index < W2b.members.length ∧
    pkA = (W2b.members.getD W2b.current_payout_index dMem).pubkey ∧
    200000 = W2b.current_pool ∧
    (execute_payout W2b 1234567902).2 =
      (let pm : Member :=
         { W2b.members.getD W2b.current_payout_index dMem with has_received_payout := true }
       let paid : CircleState :=
         { W2b with members := W2b.members.set W2b.current_payout_index pm }
       { paid with
           prev_state_hash := state_hash paid,
           current_pool := 0,
           current_round := (W2b.current_round + 1) % U32,
           current_payout_index := (W2b.current_payout_index + 1) % W2b.members.length,
           round_started_at := 1234567902,
           is_complete := decide ((W2b.current_round + 1) % U32 ≥ W2b.total_rounds) }) ∧
    ((execute_payout W2b 1234567902).2.members.getD W2b.current_payout_index
        dMem).has_received_payout = true ∧
    ((execute_payout W2b 1234567902).2.is_complete = true ↔
      (execute_payout W2b 1234567902).2.current_round ≥
        (execute_payout W2b 1234567902).2.total_rounds) :=
  C1_execute_payout_success W2b 1234567902 pkA 200000 (by rfl)

/-- If no member matches the pubkey, the contribution walk reports
`Member not found`. -/
theorem recordInMembers_not_found (pk : List Nat) (r cpr a ts : Nat)
    (tx : List Nat) (ms : List Member) (h : ∀ m ∈ ms, m.pubkey ≠ pk) :
    recordInMembers pk r cpr a ts tx ms = Except.error "Member not found" := by
  induction ms with
  | nil => rfl
  | cons m rest ih =>
    have hm : m.pubkey ≠ pk := h m (by simp)
    simp only [recordInMembers]
    rw [if_neg (by simpa using hm)]
    rw [ih (fun x hx => h x (by simp [hx]))]
    rfl

/-- The contribution walk at the first member matching the pubkey: duplicate
check, then amount check, then append-and-return. -/
theorem recordInMembers_found (pk : List Nat) (r cpr a ts : Nat)
    (tx : List Nat) (pre : List Member) (m : Member) (post : List Member)
    (hpre : ∀ x ∈ pre, x.pubkey ≠ pk) (hm : m.pubkey = pk) :
    recordInMembers pk r cpr a ts tx (pre ++ m :: post) =
      (if m.contribution_history.any (fun c => c.round == r) then
        Except.error "Member already contributed this round"
      else if a ≠ cpr then Except.error "Invalid contribution amount"
      else Except.ok (pre ++ ({ m with contribution_history :=
        m.contribution_history ++
          [{ round := r, amount := a, timestamp := ts, txid := tx }] }) :: post)) := by
  induction pre with
  | nil =>
    simp only [List.nil_append, recordInMembers]
    rw [if_pos (by simp [hm])]
  | cons x xs ih =>
    have hx : x.pubkey ≠ pk := hpre x (by simp)
    simp only [List.cons_append, recordInMembers, List.append_eq]
    rw [if_neg (by simpa using hx)]
    rw [ih (fun y hy => hpre y (by simp [hy]))]
    split
    · rfl
    · split
      · rfl
      · rfl

/-- After a successful contribution walk, repeating the walk for the same
round fails the duplicate check. -/
theorem recordInMembers_again (pk : List Nat) (r cpr a ts : Nat)
    (tx : List Nat) (cpr2 a2 ts2 : Nat) (tx2 : List Nat)
    (ms ms' : List Member)
    (h : recordInMembers pk r cpr a ts tx ms = Except.ok ms') :
    recordInMembers pk r cpr2 a2 ts2 tx2 ms' =
      Except.error "Member already contributed this round" := by
  induction ms generalizing ms' with
  | nil => simp [recordInMembers] at h
  | cons m rest ih =>
    by_cases hpk : (m.pubkey == pk) = true
    · simp only [recordInMembers, if_pos hpk] at h
      split at h
      · simp at h
      · split at h
        · simp at h
        · injection h with h'
          subst h'
          simp only [recordInMembers, if_pos hpk]
          rw [if_pos (by simp [List.any_append])]
    · simp only [recordInMembers, if_neg hpk] at h
      cases he : recordInMembers pk r cpr a ts tx rest with
      | error e => rw [he] at h; simp [Except.map] at h
      | ok l =>
        rw [he] at h
        simp only [Except.map, Except.ok.injEq] at h
        subst h
        simp only [recordInMembers, if_neg hpk]
        rw [ih l he]
        rfl

/-- C7: `record_contribution` fails `CircleComplete` when `is_complete`,
`MemberNotFound` when no member has the pubkey, `DuplicateContribution`
when the (first) matching member already has a record for `current_round`,
`AmountMismatch` when the amount differs from `contribution_per_round`;
on success it appends exactly one record for `current_round` to that member
and increases `current_pool` by `amount` (u64).  A second call for the same
member fails `DuplicateContribution`, and the pool has increased exactly
once. -/
theorem C7_record_contribution_characterization (s : CircleState)
    (pk : List Nat) (amount ts : Nat) (txid : List Nat) :
    (s.is_complete = true →
      record_contribution s pk amount ts txid =
        (Except.error "Circle is already complete", s)) ∧
    (s.is_complete = false → (∀ m ∈ s.members, m.pubkey ≠ pk) →
      record_contribution s pk amount ts txid =
        (Except.error "Member not found", s)) ∧
    (∀ pre m post, s.is_complete = false → s.members = pre ++ m :: post →
      (∀ x ∈ pre, x.pubkey ≠ pk) → m.pubkey = pk →
      ((m.contribution_history.any (fun c => c.round == s.current_round) = true →
        record_contribution s pk amount ts txid =
          (Except.error "Member already contributed this round", s)) ∧
      (m.contribution_history.any (fun c => c.round == s.current_round) = false →
        amount ≠ s.contribution_per_round →
        record_contribution s pk amount ts txid =
          (Except.error "Invalid contribution amount", s)) ∧
      (m.contribution_history.any (fun c => c.round == s.current_round) = false →
        amount = s.contribution_per_round →
        record_contribution s pk amount ts txid = (Except.ok (),
          (let nr : ContributionRecord :=
             { round := s.current_round, amount := amount, timestamp := ts, txid := txid }
           let m2 : Member :=
             { m with contribution_history := m.contribution_history ++ [nr] }
           { s with members := pre ++ m2 :: post,
                    current_pool := (s.current_pool + amount) % U64 }))))) ∧
    (∀ s1, record_contribution s pk amount ts txid = (Except.ok (), s1) →
      ∀ amount2 ts2 txid2,
        (record_contribution s1 pk amount2 ts2 txid2).1 =
          Except.error "Member already contributed this round" ∧
        s1.current_pool = (s.current_pool + amount) % U64) := by
  refine ⟨fun hc => ?_, fun hc hnone => ?_, fun pre m post hc hsplit hpre hm => ?_,
    fun s1 hok amount2 ts2 txid2 => ?_⟩
  · simp [record_contribution, hc]
  · unfold record_contribution
    rw [if_neg (by simp [hc])]
    rw [recordInMembers_not_found pk s.current_round s.contribution_per_round
      amount ts txid s.members hnone]
  · have hfound := recordInMembers_found pk s.current_round
      s.contribution_per_round amount ts txid pre m post hpre hm
    refine ⟨fun hdup => ?_, fun hdup hamt => ?_, fun hdup hamt => ?_⟩
    · unfold record_contribution
      rw [if_neg (by simp [hc]), hsplit, hfound, if_pos hdup]
    · unfold record_contribution
      rw [if_neg (by simp [hc]), hsplit, hfound, if_neg (by simp [hdup]),
        if_pos hamt]
    · unfold record_contribution
      rw [if_neg (by simp [hc]), hsplit, hfound, if_neg (by simp [hdup]),
        if_neg (by simp [hamt])]
  · unfold record_contribution at hok
    split at hok
    · simp at hok
    · rename_i hc
      split at hok
      · simp at hok
      · rename_i ms' hms
        simp only [Prod.mk.injEq] at hok
        have hs1 :
            s1 = { s with members := ms', current_pool := (s.current_pool + amount) % U64 } :=
          hok.2.symm
        subst hs1
        refine ⟨?_, rfl⟩
        unfold record_contribution
        rw [if_neg (by simpa using hc)]
        dsimp only
        rw [recordInMembers_again pk s.current_round s.contribution_per_round
          amount ts txid s.contribution_per_round amount2 ts2 txid2
          s.members ms' hms]

/-- Witness for C7: in the two-member circle `W2`, A's first contribution
succeeds and raises the pool; A's immediate second contribution fails the
duplicate check, and B's wrong amount fails the amount check. -/
theorem C7_record_contribution_characterization_witness :
    record_contribution W2 pkA 100000 1234567900 tx0 = (Except.ok (), W2a) ∧
    (record_contribution W2a pkA 100000 1234567905 tx0).1 =
      Except.error "Member already contributed this round" ∧
    W2a.current_pool = (W2.current_pool + 100000) % U64 ∧
    record_contribution W2a pkB 999 1234567905 tx0 =
      (Except.error "Invalid contribution amount", W2a) := by
  have h2 := (C7_record_contribution_characterization W2 pkA 100000 1234567900
    tx0).2.2.2 W2a (by decide) 100000 1234567905 tx0
  have h3 := ((C7_record_contribution_characterization W2a pkB 999 1234567905
    tx0).2.2.1 [W2a.members.getD 0 dMem] (W2a.members.getD 1 dMem) []
    (by decide) (by decide) (by decide) (by decide)).2.1 (by decide) (by decide)
  exact ⟨by decide, h2.1, h2.2, h3⟩

/-- The contribution-history walk of `validate` succeeds iff every record
is in range with the right amount, round numbers are pairwise distinct, and
none collides with the accumulator. -/
theorem checkHistory_ok_iff (cpr tr : Nat) (l : List ContributionRecord)
    (seen : List Nat) :
    checkHistory cpr tr l seen = Except.ok () ↔
      ((∀ c ∈ l, c.round < tr ∧ c.amount = cpr) ∧
       (l.map (fun c => c.round)).Nodup ∧
       ∀ c ∈ l, c.round ∉ seen) := by
  induction l generalizing seen with
  | nil => simp [checkHistory]
  | cons c rest ih =>
    simp only [checkHistory]
    by_cases h1 : c.round ≥ tr
    · rw [if_pos h1]
      simp only [reduceCtorEq, false_iff]
      intro hr
      have := (hr.1 c (by simp)).1
      omega
    · rw [if_neg h1]
      by_cases h2 : c.amount ≠ cpr
      · rw [if_pos h2]
        simp only [reduceCtorEq, false_iff]
        intro hr
        exact h2 (hr.1 c (by simp)).2
      · rw [if_neg h2]
        push_neg at h2
        by_cases h3 : seen.contains c.round = true
        · rw [if_pos h3]
          simp only [reduceCtorEq, false_iff]
          intro hr
          exact hr.2.2 c (by simp) (by simpa using h3)
        · rw [if_neg h3]
          rw [ih (c.round :: seen)]
          have h3' : c.round ∉ seen := by simpa using h3
          constructor
          · rintro ⟨ha, hb, hc2⟩
            refine ⟨?_, ?_, ?_⟩
            · intro x hx
              rcases List.mem_cons.mp hx with hx | hx
              · subst hx; exact ⟨by omega, h2⟩
              · exact ha x hx
            · rw [List.map_cons, List.nodup_cons]
              refine ⟨?_, hb⟩
              intro hmem
              obtain ⟨x, hx, hxr⟩ := List.mem_map.mp hmem
              exact (hc2 x hx) (by simp [hxr])
            · intro x hx
              rcases List.mem_cons.mp hx with hx | hx
              · subst hx; exact h3'
              · intro hmem
                exact (hc2 x hx) (by simp [hmem])
          · rintro ⟨ha, hb, hc2⟩
            refine ⟨fun x hx => ha x (by simp [hx]), ?_, ?_⟩
            · rw [List.map_cons, List.nodup_cons] at hb
              exact hb.2
            · intro x hx
              simp only [List.mem_cons, not_or]
              refine ⟨?_, hc2 x (by simp [hx])⟩
              rw [List.map_cons, List.nodup_cons] at hb
              intro he
              exact hb.1 (List.mem_map.mpr ⟨x, hx, he⟩)

/-- The per-member walk of `validate` succeeds iff every member passes the
payout-round checks and its history passes `checkHistory`. -/
theorem checkMembers_ok_iff (tr cr cpr : Nat) (ms : List Member) :
    checkMembers tr cr cpr ms = Except.ok () ↔
      ∀ m ∈ ms, m.payout_round < tr ∧
        (m.has_received_payout = true → m.payout_round < cr) ∧
        (∀ c ∈ m.contribution_history, c.round < tr ∧ c.amount = cpr) ∧
        (m.contribution_history.map (fun c => c.round)).Nodup := by
  induction ms with
  | nil => simp [checkMembers]
  | cons m rest ih =>
    simp only [checkMembers]
    by_cases h1 : m.payout_round ≥ tr
    · rw [if_pos h1]
      simp only [reduceCtorEq, false_iff]
      intro hr
      have := (hr m (by simp)).1
      omega
    · rw [if_neg h1]
      by_cases h2 : m.has_received_payout = true ∧ m.payout_round ≥ cr
      · rw [if_pos h2]
        simp only [reduceCtorEq, false_iff]
        intro hr
        have := (hr m (by simp)).2.1 h2.1
        omega
      · rw [if_neg h2]
        cases hch : checkHistory cpr tr m.contribution_history [] with
        | error e =>
          simp only [reduceCtorEq, false_iff]
          intro hr
          have hg := hr m (by simp)
          have : checkHistory cpr tr m.contribution_history [] =
              Except.ok () := by
            rw [checkHistory_ok_iff]
            exact ⟨hg.2.2.1, hg.2.2.2, by simp⟩
          rw [hch] at this
          exact absurd this (by simp)
        | ok u =>
          cases u
          rw [ih]
          have hh := (checkHistory_ok_iff cpr tr m.contribution_history []).mp hch
          constructor
          · intro hr
            intro x hx
            rcases List.mem_cons.mp hx with hx | hx
            · subst hx
              refine ⟨by omega, fun hp => ?_, hh.1, hh.2.1⟩
              by_contra hlt
              exact h2 ⟨hp, by omega⟩
            · exact hr x hx
          · intro hr
            exact fun x hx => hr x (by simp [hx])

/-- C3 counterexample: `S3` (one member whose `payout_round` is 5 in a
one-member circle) satisfies all five conditions of the claimed iff, yet
`validate` rejects it — the code additionally checks `payout_round`,
paid-implies-past, per-record round ranges and amounts. -/
theorem C3_counterexample :
    validate S3 = Except.error "Member has invalid payout round" ∧
    S3.total_rounds = S3.members.length ∧
    S3.current_round ≤ S3.total_rounds ∧
    S3.current_payout_index < S3.members.length ∧
    S3.current_pool = expected_pool S3 ∧
    (∀ m ∈ S3.members, (m.contribution_history.map (fun c => c.round)).Nodup) := by
  refine ⟨by decide, by decide, by decide, by decide, by decide, by decide⟩

/-- C3 amended: `validate()` succeeds iff members is non-empty,
`total_rounds` equals the member count (as u32), `current_round ≤
total_rounds`, `current_payout_index < members.length`, every member has
`payout_round < total_rounds` and (if paid) `payout_round < current_round`,
every contribution record has `round < total_rounds` and `amount =
contribution_per_round` with no member holding two records for the same
round, and `current_pool` equals the (u64) sum over members of the amount
recorded for `current_round` (0 for members without one). -/
theorem C3_validate_iff (s : CircleState) :
    validate s = Except.ok () ↔
      (s.members ≠ [] ∧
       s.total_rounds = s.members.length % U32 ∧
       s.current_round ≤ s.total_rounds ∧
       s.current_payout_index < s.members.length ∧
       (∀ m ∈ s.members, m.payout_round < s.total_rounds ∧
         (m.has_received_payout = true → m.payout_round < s.current_round) ∧
         (∀ c ∈ m.contribution_history,
           c.round < s.total_rounds ∧ c.amount = s.contribution_per_round) ∧
         (m.contribution_history.map (fun c => c.round)).Nodup) ∧
       s.current_pool = expected_pool s) := by
  unfold validate
  by_cases h1 : s.members.isEmpty = true
  · rw [if_pos h1]
    simp only [reduceCtorEq, false_iff]
    intro hr
    exact hr.1 (List.isEmpty_iff.mp h1)
  · rw [if_neg h1]
    have h1' : s.members ≠ [] := by
      intro he
      exact h1 (by simp [he])
    by_cases h2 : s.total_rounds ≠ s.members.length % U32
    · rw [if_pos h2]
      simp only [reduceCtorEq, false_iff]
      intro hr
      exact h2 hr.2.1
    · rw [if_neg h2]
      push_neg at h2
      by_cases h3 : s.current_round > s.total_rounds
      · rw [if_pos h3]
        simp only [reduceCtorEq, false_iff]
        intro hr
        omega
      · rw [if_neg h3]
        by_cases h4 : s.current_payout_index ≥ s.members.length
        · rw [if_pos h4]
          simp only [reduceCtorEq, false_iff]
          intro hr
          omega
        · rw [if_neg h4]
          cases hcm : checkMembers s.total_rounds s.current_round
              s.contribution_per_round s.members with
          | error e =>
            simp only [reduceCtorEq, false_iff]
            intro hr
            have : checkMembers s.total_rounds s.current_round
                s.contribution_per_round s.members = Except.ok () := by
              rw [checkMembers_ok_iff]
              intro m hm
              exact hr.2.2.2.2.1 m hm
            rw [hcm] at this
            exact absurd this (by simp)
          | ok u =>
            cases u
            by_cases h5 : s.current_pool ≠ expected_pool s
            · rw [if_pos h5]
              simp only [reduceCtorEq, false_iff]
              intro hr
              exact h5 hr.2.2.2.2.2
            · rw [if_neg h5]
              push_neg at h5
              simp only [true_iff]
              exact ⟨h1', h2, by omega, by omega,
                (checkMembers_ok_iff _ _ _ _).mp hcm, h5⟩

/-- Filtering by a predicate that ignores `payout_round` is invariant under
the erasure map. -/
theorem filter_length_map_erase (p : Member → Bool)
    (hp : ∀ m, p (eraseMember m) = p m) (l : List Member) :
    ((l.map eraseMember).filter p).length = (l.filter p).length := by
  induction l with
  | nil => rfl
  | cons m rest ih =>
    simp only [List.map_cons, List.filter_cons, hp m]
    split
    · simp [ih]
    · simp [ih]

/-- Positional lookup commutes with the member-list erasure. -/
theorem getD_erase_eq {ms mt : List Member}
    (hmap : ms.map eraseMember = mt.map eraseMember) (i : Nat) :
    eraseMember (ms.getD i dMem) = eraseMember (mt.getD i dMem) := by
  have h1 : (ms.map eraseMember)[i]? = (mt.map eraseMember)[i]? := by rw [hmap]
  rw [List.getElem?_map, List.getElem?_map] at h1
  rw [List.getD_eq_getElem?_getD, List.getD_eq_getElem?_getD]
  cases hs : ms[i]? with
  | none =>
    cases ht : mt[i]? with
    | none => rfl
    | some m => rw [hs, ht] at h1; simp at h1
  | some m =>
    cases ht : mt[i]? with
    | none => rw [hs, ht] at h1; simp at h1
    | some m2 =>
      rw [hs, ht] at h1
      simp only [Option.map_some', Option.some.injEq] at h1
      simpa using h1

/-- C5: `execute_payout` never consults the members' `payout_round` fields:
on any two states identical except in those fields it succeeds or fails
identically with the same returned value, and on success the recipient is
the member at `current_payout_index` in join order and the amount is the
pre-call pool. -/
theorem C5_payout_round_never_read (s t : CircleState) (ts : Nat)
    (h : eraseState s = eraseState t) :
    (execute_payout s ts).1 = (execute_payout t ts).1 ∧
    (∀ pk amt, (execute_payout s ts).1 = Except.ok (pk, amt) →
      pk = (s.members.getD s.current_payout_index dMem).pubkey ∧
      amt = s.current_pool) := by
  have hmap : s.members.map eraseMember = t.members.map eraseMember := by
    have := congrArg CircleState.members h
    simpa [eraseState] using this
  have hic : s.is_complete = t.is_complete := by
    have := congrArg CircleState.is_complete h
    simpa [eraseState] using this
  have hcr : s.current_round = t.current_round := by
    have := congrArg CircleState.current_round h
    simpa [eraseState] using this
  have hpool : s.current_pool = t.current_pool := by
    have := congrArg CircleState.current_pool h
    simpa [eraseState] using this
  have hidx : s.current_payout_index = t.current_payout_index := by
    have := congrArg CircleState.current_payout_index h
    simpa [eraseState] using this
  have hlen : s.members.length = t.members.length := by
    have := congrArg List.length hmap
    simpa using this
  have hfun : is_round_fully_funded s = is_round_fully_funded t := by
    unfold is_round_fully_funded
    rw [← hcr]
    have e1 := filter_length_map_erase
      (fun m => m.contribution_history.any (fun c => c.round == s.current_round))
      (fun m => rfl) s.members
    have e2 := filter_length_map_erase
      (fun m => m.contribution_history.any (fun c => c.round == s.current_round))
      (fun m => rfl) t.members
    rw [← e1, ← e2, hmap, hlen]
  have hpk : ∀ i, (s.members.getD i dMem).pubkey = (t.members.getD i dMem).pubkey := by
    intro i
    have := congrArg Member.pubkey (getD_erase_eq hmap i)
    simpa [eraseMember] using this
  have hpd : ∀ i, (s.members.getD i dMem).has_received_payout =
      (t.members.getD i dMem).has_received_payout := by
    intro i
    have := congrArg Member.has_received_payout (getD_erase_eq hmap i)
    simpa [eraseMember] using this
  constructor
  · unfold execute_payout
    by_cases h1 : s.is_complete = true
    · rw [if_pos h1, if_pos (show t.is_complete = true by rw [← hic]; exact h1)]
    · rw [if_neg h1, if_neg (show ¬t.is_complete = true by rw [← hic]; exact h1)]
      by_cases h2 : is_round_fully_funded s = true
      · rw [if_neg (by simp [h2]),
          if_neg (show ¬¬is_round_fully_funded t = true by rw [← hfun]; simp [h2])]
        by_cases h3 : s.current_payout_index ≥ s.members.length
        · rw [if_pos h3, if_pos (show t.current_payout_index ≥ t.members.length by
            rw [← hidx, ← hlen]; exact h3)]
        · rw [if_neg h3, if_neg (show ¬t.current_payout_index ≥ t.members.length by
            rw [← hidx, ← hlen]; exact h3)]
          dsimp only
          by_cases h4 : (s.members.getD s.current_payout_index dMem).has_received_payout = true
          · rw [if_pos h4, if_pos (show (t.members.getD t.current_payout_index
                dMem).has_received_payout = true by rw [← hidx, ← hpd]; exact h4)]
          · rw [if_neg h4, if_neg (show ¬(t.members.getD t.current_payout_index
                dMem).has_received_payout = true by rw [← hidx, ← hpd]; exact h4)]
            rw [← hidx, ← hpk, ← hpool]
      · rw [if_pos (by simpa using h2),
          if_pos (show ¬is_round_fully_funded t = true by rw [← hfun]; simpa using h2)]
  · intro pk amt hok
    unfold execute_payout at hok
    split at hok
    · simp at hok
    · split at hok
      · simp at hok
      · split at hok
        · simp at hok
        · dsimp only at hok
          split at hok
          · simp at hok
          · simp only [Except.ok.injEq, Prod.mk.injEq] at hok
            exact ⟨hok.1.symm, hok.2.symm⟩

/-- Witness for C5: `S5` differs from `W2b` only in payout_round values;
the payout result values coincide and the recipient is positional. -/
theorem C5_payout_round_never_read_witness :
    (execute_payout W2b 11).1 = (execute_payout S5 11).1 ∧
    (pkA = (W2b.members.getD W2b.current_payout_index dMem).pubkey ∧
     200000 = W2b.current_pool) :=
  ⟨(C5_payout_round_never_read W2b S5 11 (by decide)).1,
   (C5_payout_round_never_read W2b S5 11 (by decide)).2 pkA 200000 (by rfl)⟩

/-- Decoding inverts the 8-byte big-endian encoding of a `u64` value. -/
theorem decU64_enc (n : Nat) (h : n < U64) (rest : List Nat) :
    decU64 (u64Bytes n ++ rest) = some (n, rest) := by
  simp only [u64Bytes, List.cons_append, List.nil_append, decU64,
    Option.some.injEq, Prod.mk.injEq]
  refine ⟨?_, trivial⟩
  simp only [U64] at h
  omega

/-- Decoding inverts the 4-byte big-endian encoding of a `u32` value. -/
theorem decU32_enc (n : Nat) (h : n < U32) (rest : List Nat) :
    decU32 (u32Bytes n ++ rest) = some (n, rest) := by
  simp only [u32Bytes, List.cons_append, List.nil_append, decU32,
    Option.some.injEq, Prod.mk.injEq]
  refine ⟨?_, trivial⟩
  simp only [U32] at h
  omega

/-- Decoding inverts the one-byte encoding of a `bool`. -/
theorem decBool_enc (b : Bool) (rest : List Nat) :
    decBool (boolByte b ++ rest) = some (b, rest) := by
  cases b <;> rfl

/-- Decoding inverts a raw byte block of known length. -/
theorem decBytes_enc (l : List Nat) (n : Nat) (h : l.length = n)
    (rest : List Nat) :
    decBytes n (l ++ rest) = some (l, rest) := by
  unfold decBytes
  rw [if_neg (by simp [h])]
  rw [List.take_left' h, List.drop_left' h]

/-- Decoding inverts the concatenation of `n` element encodings. -/
theorem decListN_enc {α : Type} (dec : List Nat → Option (α × List Nat))
    (enc : α → List Nat) (xs : List α)
    (h : ∀ x ∈ xs, ∀ rest, dec (enc x ++ rest) = some (x, rest))
    (rest : List Nat) :
    decListN dec xs.length ((xs.map enc).flatten ++ rest) = some (xs, rest) := by
  induction xs with
  | nil => rfl
  | cons x tail ih =>
    simp only [List.map_cons, List.flatten_cons, List.length_cons, decListN,
      List.append_assoc]
    rw [h x (by simp) ((tail.map enc).flatten ++ rest)]
    dsimp only
    rw [ih (fun y hy rest2 => h y (by simp [hy]) rest2)]

/-- Decoding inverts the encoding of one `ContributionRecord`. -/
theorem decRecord_enc (c : ContributionRecord) (h : wfRecord c)
    (rest : List Nat) :
    decRecord (encRecord c ++ rest) = some (c, rest) := by
  obtain ⟨h1, h2, h3, h4, _⟩ := h
  unfold decRecord encRecord
  simp only [List.append_assoc]
  rw [decU32_enc c.round h1]
  dsimp only
  rw [decU64_enc c.amount h2]
  dsimp only
  rw [decU64_enc c.timestamp h3]
  dsimp only
  rw [decBytes_enc c.txid 32 h4]

/-- Decoding inverts the encoding of one `Member`. -/
theorem decMember_enc (m : Member) (h : wfMember m) (rest : List Nat) :
    decMember (encMember m ++ rest) = some (m, rest) := by
  obtain ⟨_, h2, h3, h4, h5, h6, h7⟩ := h
  unfold decMember encMember bytesEnc
  simp only [List.append_assoc]
  rw [decU64_enc m.pubkey.length h2]
  dsimp only
  rw [decBytes_enc m.pubkey m.pubkey.length rfl]
  dsimp only
  rw [decU64_enc m.contribution_amount h3]
  dsimp only
  rw [decU64_enc m.contribution_history.length h4]
  dsimp only
  rw [decListN_enc decRecord encRecord m.contribution_history
    (fun c hc rest2 => decRecord_enc c (h5 c hc) rest2)]
  dsimp only
  rw [decBool_enc m.has_received_payout]
  dsimp only
  rw [decU32_enc m.payout_round h6]
  dsimp only
  rw [decU64_enc m.joined_at h7]

/-- Decoding inverts the encoding of a whole `CircleState`. -/
theorem decodeState_enc (s : CircleState) (h : wfState s) (rest : List Nat) :
    decodeState (encodeState s ++ rest) = some (s, rest) := by
  obtain ⟨h1, _, h3, h4, h5, h6, h7, h8, h9, h10, h11, h12, h13, _⟩ := h
  unfold decodeState encodeState
  simp only [List.append_assoc]
  rw [decBytes_enc s.circle_id 32 h1]
  dsimp only
  rw [decU64_enc s.members.length h3]
  dsimp only
  rw [decListN_enc decMember encMember s.members
    (fun m hm rest2 => decMember_enc m (h4 m hm) rest2)]
  dsimp only
  rw [decU32_enc s.current_round h5]
  dsimp only
  rw [decU32_enc s.total_rounds h6]
  dsimp only
  rw [decU64_enc s.contribution_per_round h7]
  dsimp only
  rw [decU64_enc s.current_payout_index h8]
  dsimp only
  rw [decU64_enc s.current_pool h9]
  dsimp only
  rw [decU64_enc s.created_at h10]
  dsimp only
  rw [decU64_enc s.round_started_at h11]
  dsimp only
  rw [decU64_enc s.round_duration h12]
  dsimp only
  rw [decBool_enc s.is_complete]
  dsimp only
  rw [decBytes_enc s.prev_state_hash 32 h13]

/-- C8: for every representable state, decoding the canonical encoding
yields a state equal to the original in every field, and `state_hash` of
the decoded state equals `state_hash` of the original. -/
theorem C8_encode_decode_roundtrip (s : CircleState) (h : wfState s) :
    decodeState (encodeState s) = some (s, []) ∧
    (∀ s2 rest, decodeState (encodeState s) = some (s2, rest) →
      s2 = s ∧ state_hash s2 = state_hash s) := by
  have h1 : decodeState (encodeState s ++ []) = some (s, []) :=
    decodeState_enc s h []
  rw [List.append_nil] at h1
  refine ⟨h1, ?_⟩
  intro s2 rest h2
  rw [h1] at h2
  simp only [Option.some.injEq, Prod.mk.injEq] at h2
  rw [h2.1]
  exact ⟨rfl, rfl⟩

/-- Witness for C8 at the one-member circle `W1`. -/
theorem C8_encode_decode_roundtrip_witness :
    decodeState (encodeState W1) = some (W1, []) ∧
    (W1 = W1 ∧ state_hash W1 = state_hash W1) :=
  ⟨(C8_encode_decode_roundtrip W1 (by decide)).1,
   (C8_encode_decode_roundtrip W1 (by decide)).2 W1 []
     (C8_encode_decode_roundtrip W1 (by decide)).1⟩

end CharmCircles
